import Mathlib

/-!
Shallow embedding of the UNICEF donations dashboard (src/app.py) and proofs
about its data loading and aggregation behaviour.

The program is a single-stage pipeline: `load_data` parses a semicolon
delimited CSV export, renames the 16 columns, converts `DonationDate` with
an exact format (raising on any malformed date), coerces `AmountEUR` to
numeric (non-numeric becomes missing), and maps the Slovak `IsAnonymous`
values to booleans.  The dashboard then computes group-by aggregates
(monthly totals, campaign totals, frequency and donor-type counts and sums,
and an RFM table over the rows whose `PaymentStatus` is "Úspešná") and
renders them.
-/

/-! ### Field splitting (model of `pd.read_csv(..., sep=";")`) -/

/-- Split a list of characters at every occurrence of `sep`.  This models the
field splitting that `pd.read_csv(uploaded_file, sep=";")` performs on each
input line (quoting is not modelled; no claim concerns quoted fields). -/
def splitOnC (sep : Char) : List Char → List (List Char)
  | [] => [[]]
  | c :: t =>
    match splitOnC sep t with
    | [] => [[]]
    | f :: rest => if c = sep then [] :: f :: rest else (c :: f) :: rest

/-- Join a list of fields back into a line, placing `sep` between fields. -/
def joinSep (sep : Char) : List (List Char) → List Char
  | [] => []
  | [f] => f
  | f :: g :: t => f ++ sep :: joinSep sep (g :: t)

/-- Splitting a line into fields by `';'`, as `read_csv(sep=";")` does. -/
def parseLine (line : List Char) : List (List Char) :=
  splitOnC ';' line

theorem splitOnC_ne_nil (sep : Char) (cs : List Char) : splitOnC sep cs ≠ [] := by
  cases cs with
  | nil => simp [splitOnC]
  | cons c t =>
    simp only [splitOnC]
    cases splitOnC sep t with
    | nil => simp
    | cons f rest =>
      by_cases h : c = sep <;> simp [h]

theorem joinSep_splitOnC (sep : Char) (cs : List Char) :
    joinSep sep (splitOnC sep cs) = cs := by
  induction cs with
  | nil => simp [splitOnC, joinSep]
  | cons c t ih =>
    simp only [splitOnC]
    cases h : splitOnC sep t with
    | nil => exact absurd h (splitOnC_ne_nil sep t)
    | cons f rest =>
      rw [h] at ih
      by_cases hc : c = sep
      · subst hc
        simp only [if_pos rfl]
        cases rest with
        | nil => simp_all [joinSep]
        | cons g t2 => simp_all [joinSep]
      · simp only [if_neg hc]
        cases rest with
        | nil => simp_all [joinSep]
        | cons g t2 => simp_all [joinSep]

theorem not_sep_mem_of_mem_splitOnC (sep : Char) (cs : List Char) :
    ∀ f ∈ splitOnC sep cs, sep ∉ f := by
  induction cs with
  | nil => simp [splitOnC]
  | cons c t ih =>
    simp only [splitOnC]
    cases h : splitOnC sep t with
    | nil => exact absurd h (splitOnC_ne_nil sep t)
    | cons f rest =>
      rw [h] at ih
      by_cases hc : c = sep
      · subst hc
        simp only [if_pos rfl]
        intro g hg
        rcases List.mem_cons.mp hg with hg | hg
        · simp [hg]
        · exact ih g hg
      · simp only [if_neg hc]
        intro g hg
        rcases List.mem_cons.mp hg with hg | hg
        · subst hg
          intro hmem
          rcases List.mem_cons.mp hmem with hmem | hmem
          · exact hc hmem.symm
          · exact ih f (by simp) hmem
        · exact ih g (List.mem_cons_of_mem f hg)

theorem splitOnC_eq_self_of_not_mem (sep : Char) (cs : List Char)
    (h : sep ∉ cs) : splitOnC sep cs = [cs] := by
  induction cs with
  | nil => simp [splitOnC]
  | cons c t ih =>
    have hc : c ≠ sep := fun he => h (by simp [he])
    have ht : sep ∉ t := fun hm => h (by simp [hm])
    simp only [splitOnC, ih ht]
    rw [if_neg hc]

/-! ### Date parsing (model of `pd.to_datetime(..., format="%d.%m.%Y %H:%M:%S")`) -/

/-- A parsed donation timestamp (proleptic Gregorian calendar). -/
structure Timestamp where
  year : Nat
  month : Nat
  day : Nat
  hour : Nat
  minute : Nat
  second : Nat
deriving DecidableEq

/-- Value of a decimal digit character, or `none` when not a digit. -/
def digitVal (c : Char) : Option Nat :=
  if c.isDigit then some (c.toNat - 48) else none

/-- Read an unsigned decimal number from a nonempty list of digit characters. -/
def readNatAux : List Char → Nat → Option Nat
  | [], acc => some acc
  | c :: t, acc =>
    match digitVal c with
    | none => none
    | some d => readNatAux t (acc * 10 + d)

/-- Read a nonempty all-digit character list as a natural number. -/
def readNat : List Char → Option Nat
  | [] => none
  | cs => readNatAux cs 0

/-- Gregorian leap-year test. -/
def isLeap (y : Nat) : Bool :=
  (y % 4 == 0 && y % 100 != 0) || y % 400 == 0

/-- Number of days in month `m` of year `y`. -/
def daysInMonth (y m : Nat) : Nat :=
  if m = 2 then (if isLeap y then 29 else 28)
  else if m = 4 ∨ m = 6 ∨ m = 9 ∨ m = 11 then 30
  else 31

/-- Parse one `"%d.%m.%Y %H:%M:%S"` timestamp, validating calendar ranges, as
`pd.to_datetime(df["DonationDate"], format="%d.%m.%Y %H:%M:%S")` does per
value; any failure raises and is modelled as `none`. -/
def to_datetime (s : String) : Option Timestamp :=
  match splitOnC ' ' s.data with
  | [datePart, timePart] =>
    match splitOnC '.' datePart, splitOnC ':' timePart with
    | [ds, ms, ys], [hs, mins, ss] =>
      if ds.length ≤ 2 ∧ ms.length ≤ 2 ∧ ys.length = 4 ∧
         hs.length ≤ 2 ∧ mins.length ≤ 2 ∧ ss.length ≤ 2 then
        match readNat ds, readNat ms, readNat ys,
              readNat hs, readNat mins, readNat ss with
        | some d, some m, some y, some h, some mi, some se =>
          if 1 ≤ m ∧ m ≤ 12 ∧ 1 ≤ d ∧ d ≤ daysInMonth y m ∧
             h ≤ 23 ∧ mi ≤ 59 ∧ se ≤ 59 then
            some ⟨y, m, d, h, mi, se⟩
          else none
        | _, _, _, _, _, _ => none
      else none
    | _, _ => none
  | _ => none

/-- Days of the proleptic Gregorian calendar strictly before month `m` of
year `y`. -/
def daysBeforeMonth (y m : Nat) : Nat :=
  (List.range (m - 1)).foldr (fun i acc => daysInMonth y (i + 1) + acc) 0

/-- Absolute time of a timestamp in seconds.  Pandas timestamps are epoch
nanoseconds; only differences and comparisons of this value are used, so the
choice of origin (year 1 here) is immaterial. -/
def Timestamp.toSec (t : Timestamp) : Int :=
  let y := t.year
  let days :=
    365 * (y - 1) + (y - 1) / 4 - (y - 1) / 100 + (y - 1) / 400 +
      daysBeforeMonth y t.month + (t.day - 1)
  ((days * 86400 + t.hour * 3600 + t.minute * 60 + t.second : Nat) : Int)

/-! ### Numeric coercion (model of `pd.to_numeric(..., errors="coerce")`) -/

/-- Parse an unsigned decimal literal (digits with an optional fractional
part) as a rational. -/
def parseUnsigned (cs : List Char) : Option ℚ :=
  match splitOnC '.' cs with
  | [intPart] => (readNat intPart).map (fun n => (n : ℚ))
  | [intPart, fracPart] =>
    match readNat intPart, readNat fracPart with
    | some n, some f => some ((n : ℚ) + (f : ℚ) / ((10 : ℚ) ^ fracPart.length))
    | _, _ => none
  | _ => none

/-- Numeric coercion of one `AmountEUR` cell, as
`pd.to_numeric(df["AmountEUR"], errors="coerce")` does per value: a numeric
string becomes its value and anything else becomes missing (`none`), never an
error. -/
def to_numeric (s : String) : Option ℚ :=
  match s.data with
  | '-' :: rest => (parseUnsigned rest).map (fun q => -q)
  | '+' :: rest => parseUnsigned rest
  | cs => parseUnsigned cs

/-- Mapping of the Slovak `IsAnonymous` values, as
`df["IsAnonymous"].map({"Áno": True, "Nie": False})` does per value: "Áno"
becomes `True`, "Nie" becomes `False`, and any other value becomes missing. -/
def anonMap (s : String) : Option Bool :=
  if s = "Áno" then some true
  else if s = "Nie" then some false
  else none

/-! ### The data model and `load_data` -/

/-- One raw row of the uploaded semicolon-delimited export, after the rename
to the 16 English column names of `load_data`. -/
structure RawRow where
  Organization : String
  Campaign : String
  DonationDate : String
  FirstName : String
  LastName : String
  AmountEUR : String
  Frequency : String
  PaymentVS : String
  PaymentStatus : String
  Email : String
  PaymentGateway : String
  PaymentMethod : String
  IsAnonymous : String
  AltLinkName : String
  Source : String
  DonorType : String
deriving DecidableEq

/-- One donation record of the loaded table, after the type conversions of
`load_data`:  `DonationDate` parsed, `AmountEUR` coerced (missing when
non-numeric), `IsAnonymous` mapped (missing when neither "Áno" nor "Nie"). -/
structure Record where
  Organization : String
  Campaign : String
  DonationDate : Timestamp
  FirstName : String
  LastName : String
  AmountEUR : Option ℚ
  Frequency : String
  PaymentVS : String
  PaymentStatus : String
  Email : String
  PaymentGateway : String
  PaymentMethod : String
  IsAnonymous : Option Bool
  AltLinkName : String
  Source : String
  DonorType : String
deriving DecidableEq

/-- Conversion of one raw row given its parsed date, combining the three
column conversions of `load_data`. -/
def mkRecord (raw : RawRow) (d : Timestamp) : Record :=
  { Organization := raw.Organization
    Campaign := raw.Campaign
    DonationDate := d
    FirstName := raw.FirstName
    LastName := raw.LastName
    AmountEUR := to_numeric raw.AmountEUR
    Frequency := raw.Frequency
    PaymentVS := raw.PaymentVS
    PaymentStatus := raw.PaymentStatus
    Email := raw.Email
    PaymentGateway := raw.PaymentGateway
    PaymentMethod := raw.PaymentMethod
    IsAnonymous := anonMap raw.IsAnonymous
    AltLinkName := raw.AltLinkName
    Source := raw.Source
    DonorType := raw.DonorType }

/-- The `load_data` function of src/app.py on the renamed rows: converts
`DonationDate` (any malformed date raises, failing the whole load),
`AmountEUR` (coerced, never failing) and `IsAnonymous`, and returns the
loaded table. -/
def load_data : List RawRow → Except String (List Record)
  | [] => Except.ok []
  | raw :: t =>
    match to_datetime raw.DonationDate with
    | none =>
      Except.error ("time data " ++ raw.DonationDate ++
        " does not match format %d.%m.%Y %H:%M:%S")
    | some d =>
      match load_data t with
      | Except.error e => Except.error e
      | Except.ok recs => Except.ok (mkRecord raw d :: recs)

/-! ### Group-by aggregation (model of `DataFrame.groupby(...).agg(...)`) -/

/-- Insert one row into the association list of groups: the row is added to
the group of its key, or a new singleton group is appended for a fresh key. -/
def insertRow {κ ρ : Type} [DecidableEq κ] (k : κ) (r : ρ) :
    List (κ × List ρ) → List (κ × List ρ)
  | [] => [(k, [r])]
  | p :: t => if p.1 = k then (p.1, r :: p.2) :: t else p :: insertRow k r t

/-- Group a list of rows by a key function: one group per distinct key,
holding exactly the rows having that key.  This is the aggregation pass
behind every `groupby`, `value_counts` and `resample` call of the
dashboard. -/
def groupByKey {κ ρ : Type} [DecidableEq κ] (key : ρ → κ) : List ρ → List (κ × List ρ)
  | [] => []
  | r :: t => insertRow (key r) r (groupByKey key t)

/-- Lookup of a key in an association list. -/
def lookupKey {κ α : Type} [DecidableEq κ] (k : κ) : List (κ × α) → Option α
  | [] => none
  | p :: t => if p.1 = k then some p.2 else lookupKey k t

/-- A grouped aggregate: group the rows by `key` and apply `agg` to each
group, keeping one `(key, aggregate)` pair per distinct key.  Models
`df.groupby(key)[col].agg(agg)` and friends. -/
def aggBy {ρ κ α : Type} [DecidableEq κ] (key : ρ → κ) (agg : List ρ → α)
    (rs : List ρ) : List (κ × α) :=
  (groupByKey key rs).map (fun p => (p.1, agg p.2))


theorem lookupKey_insertRow {κ ρ : Type} [DecidableEq κ] (k k₀ : κ) (r : ρ)
    (l : List (κ × List ρ)) :
    lookupKey k (insertRow k₀ r l) =
      if k₀ = k then some (r :: (lookupKey k l).getD []) else lookupKey k l := by
  induction l with
  | nil =>
    by_cases h : k₀ = k <;> simp [insertRow, lookupKey, h]
  | cons p t ih =>
    simp only [insertRow]
    by_cases hp : p.1 = k₀
    · rw [if_pos hp]
      by_cases hk : k₀ = k
      · have hpk : p.1 = k := hp.trans hk
        rw [if_pos hk]
        simp [lookupKey, hpk]
      · have hpk : ¬p.1 = k := fun h => hk (hp ▸ h)
        rw [if_neg hk]
        simp [lookupKey, hpk]
    · rw [if_neg hp]
      by_cases hpk : p.1 = k
      · have hk : ¬k₀ = k := fun h => hp (hpk.trans h.symm)
        rw [if_neg hk]
        simp [lookupKey, hpk]
      · simp only [lookupKey, if_neg hpk, ih]

theorem lookupKey_groupByKey {κ ρ : Type} [DecidableEq κ] (key : ρ → κ)
    (rs : List ρ) (k : κ) :
    lookupKey k (groupByKey key rs) =
      if (rs.filter (fun r => key r = k)).isEmpty then none
      else some (rs.filter (fun r => key r = k)) := by
  induction rs with
  | nil => simp [groupByKey, lookupKey]
  | cons r t ih =>
    have h1 : groupByKey key (r :: t) = insertRow (key r) r (groupByKey key t) := rfl
    rw [h1, lookupKey_insertRow]
    by_cases hk : key r = k
    · rw [if_pos hk, ih]
      have h2 : List.filter (fun x => decide (key x = k)) (r :: t)
          = r :: List.filter (fun x => decide (key x = k)) t := by
        simp [List.filter_cons, hk]
      rw [h2]
      by_cases he : (List.filter (fun x => decide (key x = k)) t).isEmpty
      · have h3 : List.filter (fun x => decide (key x = k)) t = [] :=
          List.isEmpty_iff.mp he
        simp [h3]
      · have h3 : ¬List.filter (fun x => decide (key x = k)) t = [] :=
          fun hnil => he (by simp [hnil])
        simp [he, h3]
    · rw [if_neg hk, ih]
      have h2 : List.filter (fun x => decide (key x = k)) (r :: t)
          = List.filter (fun x => decide (key x = k)) t := by
        simp [List.filter_cons, hk]
      rw [h2]

theorem keys_insertRow {κ ρ : Type} [DecidableEq κ] (k : κ) (r : ρ)
    (l : List (κ × List ρ)) :
    (insertRow k r l).map Prod.fst =
      if k ∈ l.map Prod.fst then l.map Prod.fst else l.map Prod.fst ++ [k] := by
  induction l with
  | nil => simp [insertRow]
  | cons p t ih =>
    simp only [insertRow]
    by_cases hp : p.1 = k
    · rw [if_pos hp]
      have hm : k ∈ (p :: t).map Prod.fst := by simp [hp]
      rw [if_pos hm]
      simp
    · rw [if_neg hp]
      have hkp : ¬k = p.1 := fun h => hp h.symm
      by_cases hm : k ∈ t.map Prod.fst
      · have hm2 : k ∈ (p :: t).map Prod.fst := by simp [hm]
        rw [if_pos hm2]
        simp only [List.map_cons]
        rw [ih, if_pos hm]
      · have hm2 : ¬k ∈ (p :: t).map Prod.fst := by simp [hkp, hm]
        rw [if_neg hm2]
        simp only [List.map_cons]
        rw [ih, if_neg hm]
        simp

theorem nodup_keys_groupByKey {κ ρ : Type} [DecidableEq κ] (key : ρ → κ)
    (rs : List ρ) : ((groupByKey key rs).map Prod.fst).Nodup := by
  induction rs with
  | nil => simp [groupByKey]
  | cons r t ih =>
    have h1 : groupByKey key (r :: t) = insertRow (key r) r (groupByKey key t) := rfl
    rw [h1, keys_insertRow]
    by_cases hm : key r ∈ (groupByKey key t).map Prod.fst
    · simpa [hm] using ih
    · rw [if_neg hm]
      refine List.Nodup.append ih (List.nodup_singleton _) ?_
      intro a ha hka
      exact hm ((List.mem_singleton.mp hka) ▸ ha)

theorem lookupKey_eq_some_of_mem {κ α : Type} [DecidableEq κ]
    {l : List (κ × α)} (hnd : (l.map Prod.fst).Nodup) {p : κ × α} (hp : p ∈ l) :
    lookupKey p.1 l = some p.2 := by
  induction l with
  | nil => simp at hp
  | cons q t ih =>
    rw [List.map_cons, List.nodup_cons] at hnd
    rcases List.mem_cons.mp hp with hp | hp
    · subst hp
      simp [lookupKey]
    · have hq : ¬q.1 = p.1 := by
        intro he
        exact hnd.1 (he ▸ List.mem_map.mpr ⟨p, hp, rfl⟩)
      simp only [lookupKey, if_neg hq]
      exact ih hnd.2 hp

theorem mem_of_lookupKey_eq_some {κ α : Type} [DecidableEq κ]
    {l : List (κ × α)} {k : κ} {v : α} (h : lookupKey k l = some v) :
    (k, v) ∈ l := by
  induction l with
  | nil => simp [lookupKey] at h
  | cons q t ih =>
    simp only [lookupKey] at h
    by_cases hq : q.1 = k
    · rw [if_pos hq] at h
      have hv : q.2 = v := Option.some.inj h
      have hqe : q = (k, v) := by
        obtain ⟨q1, q2⟩ := q
        simp only at hq hv
        rw [hq, hv]
      rw [← hqe]
      exact List.mem_cons_self q t
    · rw [if_neg hq] at h
      exact List.mem_cons_of_mem q (ih h)

theorem lookupKey_isSome_iff {κ α : Type} [DecidableEq κ]
    (k : κ) (l : List (κ × α)) :
    (lookupKey k l).isSome = true ↔ k ∈ l.map Prod.fst := by
  induction l with
  | nil => simp [lookupKey]
  | cons q t ih =>
    simp only [lookupKey, List.map_cons, List.mem_cons]
    by_cases hq : q.1 = k
    · simp [hq]
    · have : ¬k = q.1 := fun h => hq h.symm
      simp [hq, this, ih]

theorem filter_ne_nil_iff {ρ : Type} (q : ρ → Prop) [DecidablePred q]
    (rs : List ρ) :
    ¬rs.filter (fun r => q r) = [] ↔ ∃ r ∈ rs, q r := by
  rw [List.filter_eq_nil_iff]
  simp

theorem mem_groupByKey {κ ρ : Type} [DecidableEq κ] (key : ρ → κ)
    (rs : List ρ) (k : κ) (g : List ρ) :
    (k, g) ∈ groupByKey key rs ↔
      (∃ r ∈ rs, key r = k) ∧ g = rs.filter (fun r => key r = k) := by
  constructor
  · intro hm
    have hl := lookupKey_eq_some_of_mem (nodup_keys_groupByKey key rs) hm
    rw [lookupKey_groupByKey] at hl
    by_cases he : (rs.filter (fun r => key r = k)).isEmpty
    · rw [if_pos he] at hl
      exact absurd hl (by simp)
    · rw [if_neg he] at hl
      have hne : ¬rs.filter (fun r => key r = k) = [] :=
        fun hnil => he (by simp [hnil])
      exact ⟨(filter_ne_nil_iff _ rs).mp hne, (Option.some.inj hl).symm⟩
  · rintro ⟨hex, hg⟩
    have hne : ¬rs.filter (fun r => key r = k) = [] :=
      (filter_ne_nil_iff _ rs).mpr hex
    have he : ¬(rs.filter (fun r => key r = k)).isEmpty := by
      simpa [List.isEmpty_iff] using hne
    have hl : lookupKey k (groupByKey key rs) = some g := by
      rw [lookupKey_groupByKey, if_neg he, hg]
    exact mem_of_lookupKey_eq_some hl

theorem mem_aggBy {ρ κ α : Type} [DecidableEq κ] (key : ρ → κ)
    (agg : List ρ → α) (rs : List ρ) (k : κ) (v : α) :
    (k, v) ∈ aggBy key agg rs ↔
      (∃ r ∈ rs, key r = k) ∧ v = agg (rs.filter (fun r => key r = k)) := by
  unfold aggBy
  rw [List.mem_map]
  constructor
  · rintro ⟨⟨k₂, g⟩, hp, he⟩
    obtain ⟨hk, hv⟩ := Prod.mk.injEq .. ▸ he
    subst hk
    obtain ⟨hex, hg⟩ := (mem_groupByKey key rs k₂ g).mp hp
    exact ⟨hex, by rw [← hv, hg]⟩
  · rintro ⟨hex, hv⟩
    refine ⟨(k, rs.filter (fun r => key r = k)), ?_, ?_⟩
    · exact (mem_groupByKey key rs k _).mpr ⟨hex, rfl⟩
    · simp [hv]

theorem keys_aggBy {ρ κ α : Type} [DecidableEq κ] (key : ρ → κ)
    (agg : List ρ → α) (rs : List ρ) :
    (aggBy key agg rs).map Prod.fst = (groupByKey key rs).map Prod.fst := by
  unfold aggBy
  rw [List.map_map]
  rfl

theorem nodup_keys_aggBy {ρ κ α : Type} [DecidableEq κ] (key : ρ → κ)
    (agg : List ρ → α) (rs : List ρ) :
    ((aggBy key agg rs).map Prod.fst).Nodup := by
  rw [keys_aggBy]
  exact nodup_keys_groupByKey key rs

theorem mem_keys_aggBy {ρ κ α : Type} [DecidableEq κ] (key : ρ → κ)
    (agg : List ρ → α) (rs : List ρ) (k : κ) :
    k ∈ (aggBy key agg rs).map Prod.fst ↔ ∃ r ∈ rs, key r = k := by
  rw [keys_aggBy, ← lookupKey_isSome_iff, lookupKey_groupByKey]
  by_cases he : (rs.filter (fun r => key r = k)).isEmpty
  · have hnil : rs.filter (fun r => key r = k) = [] := List.isEmpty_iff.mp he
    rw [if_pos he]
    simp only [Option.isSome_none, Bool.false_eq_true, false_iff]
    exact fun hex => (filter_ne_nil_iff _ rs).mpr hex hnil
  · have hne : ¬rs.filter (fun r => key r = k) = [] :=
      fun hnil => he (by simp [hnil])
    rw [if_neg he]
    simp only [Option.isSome_some, true_iff]
    exact (filter_ne_nil_iff _ rs).mp hne

/-! ### The dashboard aggregates (src/app.py lines 60-136) -/

/-- Sum of the `AmountEUR` values of a list of records; missing amounts are
skipped, as pandas `sum()` skips NaN. -/
def sumAmounts (g : List Record) : ℚ :=
  (g.filterMap (fun r => r.AmountEUR)).sum

/-- Largest `DonationDate` of a list of records, in seconds.  Every
`Timestamp.toSec` is nonnegative, so on a nonempty list the fold computes
the maximum, matching `Series.max()` on the nonempty groups that `groupby`
produces. -/
def maxSec (g : List Record) : Int :=
  (g.map (fun r => r.DonationDate.toSec)).foldr max 0

/-- Calendar month of a record, as the pair (year, month).  This is the key
of `resample("ME")` after the `strftime("%Y-%m")` relabeling. -/
def monthKey (r : Record) : Nat × Nat :=
  (r.DonationDate.year, r.DonationDate.month)

/-- Monthly donation totals:
`df.set_index("DonationDate")["AmountEUR"].resample("ME").sum()`.
The embedding keeps the month-to-sum assignment; `resample` additionally
emits, for each empty month lying between two occupied ones, a row whose sum
is 0 (the sum over its zero records), which no claim concerns. -/
def monthly_donations (rs : List Record) : List ((Nat × Nat) × ℚ) :=
  aggBy monthKey sumAmounts rs

/-- Descending order on campaign or donor-type totals, as
`sort_values(ascending=False)`. -/
def byAmountDesc (a b : String × ℚ) : Prop := b.2 ≤ a.2

/-- Ascending order on totals, as the `sort_values()` used for the
horizontal-bar display of the top and bottom campaign sets. -/
def byAmountAsc (a b : String × ℚ) : Prop := a.2 ≤ b.2

/-- Descending order on counts, as `value_counts()` sorts. -/
def byCountDesc (a b : String × Nat) : Prop := b.2 ≤ a.2

/-- Descending order on the Monetary component of RFM rows, as
`rfm.sort_values(by="Monetary (€)", ascending=False)`. -/
def byMonetaryDesc (a b : String × (Int × Nat × ℚ)) : Prop :=
  b.2.2.2 ≤ a.2.2.2

instance : DecidableRel byAmountDesc :=
  fun a b => inferInstanceAs (Decidable (b.2 ≤ a.2))

instance : DecidableRel byAmountAsc :=
  fun a b => inferInstanceAs (Decidable (a.2 ≤ b.2))

instance : DecidableRel byCountDesc :=
  fun a b => inferInstanceAs (Decidable (b.2 ≤ a.2))

instance : DecidableRel byMonetaryDesc :=
  fun a b => inferInstanceAs (Decidable (b.2.2.2 ≤ a.2.2.2))

instance : IsTotal (String × ℚ) byAmountDesc :=
  ⟨fun a b => le_total b.2 a.2⟩

instance : IsTrans (String × ℚ) byAmountDesc :=
  ⟨fun _ _ _ h₁ h₂ => le_trans h₂ h₁⟩

/-- Campaign totals sorted descending:
`df.groupby("Campaign")["AmountEUR"].sum().sort_values(ascending=False)`. -/
def campaign_totals (rs : List Record) : List (String × ℚ) :=
  List.insertionSort byAmountDesc (aggBy (fun r => r.Campaign) sumAmounts rs)

/-- Top 5 campaigns: `campaign_totals.head(5).sort_values()`. -/
def top_5 (rs : List Record) : List (String × ℚ) :=
  List.insertionSort byAmountAsc ((campaign_totals rs).take 5)

/-- Bottom 5 campaigns: `campaign_totals.tail(5).sort_values()`. -/
def bottom_5 (rs : List Record) : List (String × ℚ) :=
  List.insertionSort byAmountAsc
    ((campaign_totals rs).drop ((campaign_totals rs).length - 5))

/-- Payment-frequency mix: `df["Frequency"].value_counts()`. -/
def freq_counts (rs : List Record) : List (String × Nat) :=
  List.insertionSort byCountDesc (aggBy (fun r => r.Frequency) List.length rs)

/-- Donations per donor type: `df["DonorType"].value_counts()`. -/
def donor_counts (rs : List Record) : List (String × Nat) :=
  List.insertionSort byCountDesc (aggBy (fun r => r.DonorType) List.length rs)

/-- Donation totals per donor type:
`df.groupby("DonorType")["AmountEUR"].sum().sort_values(ascending=False)`. -/
def donation_sums (rs : List Record) : List (String × ℚ) :=
  List.insertionSort byAmountDesc (aggBy (fun r => r.DonorType) sumAmounts rs)

/-- The status filter applied before the RFM analysis:
`df = df[df["PaymentStatus"] == "Úspešná"]`. -/
def successfulRows (rs : List Record) : List Record :=
  rs.filter (fun r => r.PaymentStatus = "Úspešná")

/-- The RFM aggregation pass over an already-filtered table `df`:
`today = df["DonationDate"].max() + pd.Timedelta(days=1)` followed by
`df.groupby("Email").agg(...)`, producing per donor the Recency
`(today - x.max()).days`, the Frequency `count` and the Monetary `sum`. -/
def rfmOnRows (df : List Record) : List (String × (Int × Nat × ℚ)) :=
  aggBy (fun r => r.Email)
    (fun g => (Int.fdiv (maxSec df + 86400 - maxSec g) 86400,
               g.length, sumAmounts g)) df

/-- The RFM table of src/app.py lines 115-126: the status filter followed by
the grouped aggregation. -/
def rfm (rs : List Record) : List (String × (Int × Nat × ℚ)) :=
  rfmOnRows (successfulRows rs)

/-! ### The rendered dashboard (src/app.py lines 60-136) -/

/-- The distinct aggregate computations the dashboard performs on a
non-empty loaded table, in program order. -/
inductive Aggregate where
  | monthly (data : List ((Nat × Nat) × ℚ))
  | campaigns (data : List (String × ℚ))
  | frequencyMix (data : List (String × Nat))
  | donorTypeCounts (data : List (String × Nat))
  | donorTypeSums (data : List (String × ℚ))
  | rfmTable (data : List (String × (Int × Nat × ℚ)))
deriving DecidableEq

/-- The visuals the dashboard renders on a non-empty loaded table, in
program order, each carrying the data it displays. -/
inductive Visual where
  | monthlyBar (data : List ((Nat × Nat) × ℚ))
  | topCampaignsBar (data : List (String × ℚ))
  | bottomCampaignsBar (data : List (String × ℚ))
  | frequencyPie (data : List (String × Nat))
  | donorTypeCountBar (data : List (String × Nat))
  | donorTypeSumBar (data : List (String × ℚ))
  | rfmDataframe (data : List (String × (Int × Nat × ℚ)))
deriving DecidableEq

/-- The aggregate computations of the dashboard body (one entry per
aggregation call in src/app.py lines 60-126): `monthly_donations`,
`campaign_totals`, `freq_counts`, `donor_counts`, `donation_sums`, `rfm`. -/
def dashboardAggregates (rs : List Record) : List Aggregate :=
  [Aggregate.monthly (monthly_donations rs),
   Aggregate.campaigns (campaign_totals rs),
   Aggregate.frequencyMix (freq_counts rs),
   Aggregate.donorTypeCounts (donor_counts rs),
   Aggregate.donorTypeSums (donation_sums rs),
   Aggregate.rfmTable (rfm rs)]

/-- The visuals of the dashboard body (one entry per `st.bar_chart`,
`st.altair_chart` and `st.dataframe` call in src/app.py lines 60-136). -/
def dashboardVisuals (rs : List Record) : List Visual :=
  [Visual.monthlyBar (monthly_donations rs),
   Visual.topCampaignsBar (top_5 rs),
   Visual.bottomCampaignsBar (bottom_5 rs),
   Visual.frequencyPie (freq_counts rs),
   Visual.donorTypeCountBar (donor_counts rs),
   Visual.donorTypeSumBar (donation_sums rs),
   Visual.rfmDataframe (List.insertionSort byMonetaryDesc (rfm rs))]

/-! ### Aggregates ignore fields they do not read -/

theorem insertRow_map_group {κ ρ : Type} [DecidableEq κ] (k : κ) (r : ρ)
    (g : ρ → ρ) (l : List (κ × List ρ)) :
    insertRow k (g r) (l.map (fun p => (p.1, p.2.map g))) =
      (insertRow k r l).map (fun p => (p.1, p.2.map g)) := by
  induction l with
  | nil => simp [insertRow]
  | cons p t ih =>
    simp only [List.map_cons, insertRow]
    by_cases hp : p.1 = k
    · simp [hp]
    · simp [hp, ih]

theorem groupByKey_map {κ ρ : Type} [DecidableEq κ] (key : ρ → κ)
    (g : ρ → ρ) (hk : ∀ r, key (g r) = key r) (rs : List ρ) :
    groupByKey key (rs.map g) =
      (groupByKey key rs).map (fun p => (p.1, p.2.map g)) := by
  induction rs with
  | nil => simp [groupByKey]
  | cons r t ih =>
    simp only [List.map_cons, groupByKey, ih, hk]
    exact insertRow_map_group (key r) r g (groupByKey key t)

theorem aggBy_map {κ ρ α : Type} [DecidableEq κ] (key : ρ → κ)
    (agg : List ρ → α) (g : ρ → ρ) (hk : ∀ r, key (g r) = key r)
    (ha : ∀ l : List ρ, agg (l.map g) = agg l) (rs : List ρ) :
    aggBy key agg (rs.map g) = aggBy key agg rs := by
  unfold aggBy
  rw [groupByKey_map key g hk rs, List.map_map]
  refine List.map_congr_left ?_
  intro p _
  simp [ha]

/-! ### Concrete sample data used to instantiate the theorems -/

/-- A baseline donation record for building concrete tables. -/
def demoBase : Record :=
  { Organization := "UNICEF"
    Campaign := "c0"
    DonationDate := ⟨2024, 1, 1, 0, 0, 0⟩
    FirstName := "A"
    LastName := "B"
    AmountEUR := some 0
    Frequency := "one-time"
    PaymentVS := "1"
    PaymentStatus := "Úspešná"
    Email := "a@x"
    PaymentGateway := "gw"
    PaymentMethod := "card"
    IsAnonymous := some false
    AltLinkName := ""
    Source := "web"
    DonorType := "individual" }

/-- A small loaded table: six donations, six campaigns, three donors, four
of the donations successful. -/
def demoRecords : List Record :=
  [{ demoBase with Campaign := "c1", DonationDate := ⟨2024, 1, 10, 9, 0, 0⟩, AmountEUR := some 60, Email := "a@x" },
   { demoBase with Campaign := "c2", DonationDate := ⟨2024, 1, 20, 9, 0, 0⟩, AmountEUR := some 50, Email := "a@x", Frequency := "monthly" },
   { demoBase with Campaign := "c3", DonationDate := ⟨2024, 2, 5, 9, 0, 0⟩, AmountEUR := some 40, Email := "b@x" },
   { demoBase with Campaign := "c4", DonationDate := ⟨2024, 2, 10, 9, 0, 0⟩, AmountEUR := some 30, Email := "b@x", PaymentStatus := "Zlyhaná" },
   { demoBase with Campaign := "c5", DonationDate := ⟨2024, 3, 1, 9, 0, 0⟩, AmountEUR := some 20, Email := "c@x", DonorType := "company" },
   { demoBase with Campaign := "c6", DonationDate := ⟨2024, 3, 2, 9, 0, 0⟩, AmountEUR := some 10, Email := "c@x", PaymentStatus := "Zlyhaná" }]

/-- One failed donation appended in the status-scope witness. -/
def demoFailedExtra : Record :=
  { demoBase with Campaign := "c7", DonationDate := ⟨2024, 3, 5, 9, 0, 0⟩, AmountEUR := some 99, PaymentStatus := "Zlyhaná" }

/-- A baseline raw row whose every cell is well formed. -/
def demoRawBase : RawRow :=
  { Organization := "UNICEF"
    Campaign := "c1"
    DonationDate := "15.01.2024 10:30:00"
    FirstName := "A"
    LastName := "B"
    AmountEUR := "12.5"
    Frequency := "one-time"
    PaymentVS := "1"
    PaymentStatus := "Úspešná"
    Email := "a@x"
    PaymentGateway := "gw"
    PaymentMethod := "card"
    IsAnonymous := "Nie"
    AltLinkName := ""
    Source := "web"
    DonorType := "individual" }

/-- A raw row whose date is not in the `%d.%m.%Y %H:%M:%S` format. -/
def demoRawBadDate : RawRow :=
  { demoRawBase with DonationDate := "2024-01-15 10:30:00" }

/-- A raw row with a non-numeric `AmountEUR` cell. -/
def demoRawBadAmount : RawRow :=
  { demoRawBase with AmountEUR := "abc" }

/-- A raw row whose `IsAnonymous` cell is neither "Áno" nor "Nie". -/
def demoRawOtherAnon : RawRow :=
  { demoRawBase with IsAnonymous := "Neviem" }

/-! ### Loading: shared success-path lemma -/

theorem load_data_ok_forall₂ (R : RawRow → Record → Prop)
    (hR : ∀ raw d, R raw (mkRecord raw d)) (rows : List RawRow)
    (h : ∀ raw ∈ rows, (to_datetime raw.DonationDate).isSome = true) :
    (load_data rows).isOk = true ∧
    List.Forall₂ R rows ((load_data rows).toOption.getD []) := by
  induction rows with
  | nil => exact ⟨rfl, List.Forall₂.nil⟩
  | cons raw t ih =>
    have hr := h raw (List.mem_cons_self raw t)
    obtain ⟨d, hd⟩ := Option.isSome_iff_exists.mp hr
    have ht := ih (fun x hx => h x (List.mem_cons_of_mem raw hx))
    simp only [load_data, hd]
    cases hld : load_data t with
    | error e =>
      rw [hld] at ht
      exact absurd ht.1 (by simp [Except.isOk, Except.toBool])
    | ok recs =>
      rw [hld] at ht
      refine ⟨rfl, ?_⟩
      simp only [Except.toOption, Option.getD]
      refine List.Forall₂.cons (hR raw d) ?_
      simpa [Except.toOption, Option.getD] using ht.2

/-! ### Claim theorems -/

/-- C9: `load_data` parses the uploaded file as a semicolon-delimited table.
Field boundaries of a line are exactly the occurrences of `';'`: the fields
joined by `';'` reconstruct the line, no field contains `';'`, and a line
with no `';'` — whatever commas it holds — stays one single field. -/
theorem C9_semicolon_delimited (cs : List Char) :
    joinSep ';' (parseLine cs) = cs ∧
    (∀ f ∈ parseLine cs, ';' ∉ f) ∧
    (';' ∉ cs → parseLine cs = [cs]) :=
  ⟨joinSep_splitOnC ';' cs, not_sep_mem_of_mem_splitOnC ';' cs,
   fun h => splitOnC_eq_self_of_not_mem ';' cs h⟩

/-- Witness for C9 at a concrete line holding a comma and no semicolon. -/
theorem C9_witness :
    joinSep ';' (parseLine ['a', ',', 'b']) = ['a', ',', 'b'] ∧
    parseLine ['a', ',', 'b'] = [['a', ',', 'b']] :=
  ⟨(C9_semicolon_delimited ['a', ',', 'b']).1,
   (C9_semicolon_delimited ['a', ',', 'b']).2.2 (by decide)⟩

/-- C3: if any `DonationDate` value does not parse under the expected
format, `load_data` fails as a whole and returns no table. -/
theorem C3_malformed_date_fails_load (rows : List RawRow)
    (h : ∃ raw ∈ rows, to_datetime raw.DonationDate = none) :
    (load_data rows).isOk = false := by
  induction rows with
  | nil => simp at h
  | cons raw t ih =>
    rcases h with ⟨w, hw, hnone⟩
    rcases List.mem_cons.mp hw with he | hmem
    · subst he
      simp [load_data, hnone, Except.isOk, Except.toBool]
    · simp only [load_data]
      cases hd : to_datetime raw.DonationDate with
      | none => simp [Except.isOk, Except.toBool]
      | some d =>
        have hko := ih ⟨w, hmem, hnone⟩
        cases hld : load_data t with
        | error e => simp [Except.isOk, Except.toBool]
        | ok recs =>
          rw [hld] at hko
          exact absurd hko (by simp [Except.isOk, Except.toBool])

/-- Witness for C3 at a concrete upload holding one ISO-formatted date. -/
theorem C3_witness :
    to_datetime demoRawBadDate.DonationDate = none ∧
    (load_data [demoRawBadDate]).isOk = false :=
  ⟨by decide,
   C3_malformed_date_fails_load [demoRawBadDate]
     ⟨demoRawBadDate, by decide, by decide⟩⟩

/-- C4: when every date parses, the load succeeds — whatever the
`AmountEUR` cells hold — and each record's `AmountEUR` is exactly the
numeric coercion of its cell: a numeric value, or absent (`none`) when the
cell was not numeric.  A non-numeric `AmountEUR` never fails the load and
never survives as a non-numeric value. -/
theorem C4_amount_coerces_or_absent (rows : List RawRow)
    (h : ∀ raw ∈ rows, (to_datetime raw.DonationDate).isSome = true) :
    (load_data rows).isOk = true ∧
    List.Forall₂ (fun (raw : RawRow) (rec : Record) =>
        rec.AmountEUR = to_numeric raw.AmountEUR)
      rows ((load_data rows).toOption.getD []) :=
  load_data_ok_forall₂
    (fun raw rec => rec.AmountEUR = to_numeric raw.AmountEUR)
    (fun _ _ => rfl) rows h

/-- Witness for C4 at a concrete upload holding one numeric and one
non-numeric amount (the latter coercing to `none`). -/
theorem C4_witness :
    to_numeric demoRawBadAmount.AmountEUR = none ∧
    ((load_data [demoRawBase, demoRawBadAmount]).isOk = true ∧
     List.Forall₂ (fun (raw : RawRow) (rec : Record) =>
         rec.AmountEUR = to_numeric raw.AmountEUR)
       [demoRawBase, demoRawBadAmount]
       ((load_data [demoRawBase, demoRawBadAmount]).toOption.getD [])) :=
  ⟨by decide,
   C4_amount_coerces_or_absent [demoRawBase, demoRawBadAmount] (by decide)⟩

/-- Counterexample to C8: a loaded record whose raw `IsAnonymous` cell was
neither "Áno" nor "Nie" carries a missing value, not a boolean: the load
succeeds and the record's `IsAnonymous` is `none`. -/
theorem C8_counterexample :
    (load_data [demoRawOtherAnon]).isOk = true ∧
    ((load_data [demoRawOtherAnon]).toOption.getD []).map
      (fun r => r.IsAnonymous) = [none] := by
  exact ⟨rfl, rfl⟩

/-- C8 as amended: after `load_data`, the `IsAnonymous` field of each record
is `true` where the raw cell was "Áno", `false` where it was "Nie", and
absent (missing) for any other raw value. -/
theorem C8_amended_anonymous_mapping (rows : List RawRow)
    (h : ∀ raw ∈ rows, (to_datetime raw.DonationDate).isSome = true) :
    List.Forall₂ (fun (raw : RawRow) (rec : Record) =>
        rec.IsAnonymous = anonMap raw.IsAnonymous)
      rows ((load_data rows).toOption.getD []) :=
  (load_data_ok_forall₂
    (fun raw rec => rec.IsAnonymous = anonMap raw.IsAnonymous)
    (fun _ _ => rfl) rows h).2

/-- Witness for the amended C8 at a concrete upload. -/
theorem C8_witness :
    List.Forall₂ (fun (raw : RawRow) (rec : Record) =>
        rec.IsAnonymous = anonMap raw.IsAnonymous)
      [demoRawBase, demoRawOtherAnon]
      ((load_data [demoRawBase, demoRawOtherAnon]).toOption.getD []) :=
  C8_amended_anonymous_mapping [demoRawBase, demoRawOtherAnon] (by decide)

/-- C1: the RFM table is one aggregation pass grouping the considered rows
by donor identity: a row `(e, (rec, freq, mon))` appears exactly when some
considered row carries Email `e`, and then `rec` is the day delta between
the reference date (the maximum `DonationDate` of the considered rows plus
one day) and that donor's latest `DonationDate`, `freq` is the count of the
donor's rows, and `mon` is the sum of the donor's `AmountEUR` values. -/
theorem C1_rfm_aggregation (rs : List Record) (e : String) (x : Int × Nat × ℚ) :
    (e, x) ∈ rfm rs ↔
      (∃ r ∈ successfulRows rs, r.Email = e) ∧
      x = (Int.fdiv (maxSec (successfulRows rs) + 86400 -
             maxSec ((successfulRows rs).filter (fun r => r.Email = e))) 86400,
           ((successfulRows rs).filter (fun r => r.Email = e)).length,
           sumAmounts ((successfulRows rs).filter (fun r => r.Email = e))) := by
  unfold rfm rfmOnRows
  exact mem_aggBy (fun r => r.Email) _ (successfulRows rs) e x

/-- Witness for C1: in the sample table the donor a@x has two successful
donations, 42 days of recency against the reference date, and 110 € in
total. -/
theorem C1_witness :
    ("a@x", ((42 : Int), 2, (110 : ℚ))) ∈ rfm demoRecords :=
  (C1_rfm_aggregation demoRecords "a@x" (42, 2, 110)).mpr
    ⟨by decide,
     by norm_num +decide [demoRecords, demoBase, sumAmounts, successfulRows,
          maxSec, List.filterMap_cons, Timestamp.toSec, daysBeforeMonth,
          daysInMonth, isLeap, Int.fdiv]⟩

/-- C2: donor identity for the RFM table is exactly the Email field — the
table has pairwise-distinct Email keys, and it has a row for an Email value
precisely when that value occurs among the considered donation records. -/
theorem C2_rfm_email_identity (rs : List Record) :
    ((rfm rs).map Prod.fst).Nodup ∧
    ∀ e : String,
      e ∈ (rfm rs).map Prod.fst ↔
        e ∈ (successfulRows rs).map (fun r => r.Email) := by
  constructor
  · unfold rfm rfmOnRows
    exact nodup_keys_aggBy _ _ _
  · intro e
    unfold rfm rfmOnRows
    rw [mem_keys_aggBy, List.mem_map]

/-- Witness for C2 at the sample table and the Email value a@x. -/
theorem C2_witness :
    ((rfm demoRecords).map Prod.fst).Nodup ∧
    ("a@x" ∈ (rfm demoRecords).map Prod.fst ↔
      "a@x" ∈ (successfulRows demoRecords).map (fun r => r.Email)) :=
  ⟨(C2_rfm_email_identity demoRecords).1,
   (C2_rfm_email_identity demoRecords).2 "a@x"⟩

/-- C5: the trend-over-time aggregate assigns to a calendar month the sum
of the `AmountEUR` values of exactly the donation records whose
`DonationDate` falls in that month. -/
theorem C5_monthly_totals (rs : List Record) (ym : Nat × Nat) (v : ℚ) :
    (ym, v) ∈ monthly_donations rs ↔
      (∃ r ∈ rs, monthKey r = ym) ∧
      v = sumAmounts (rs.filter (fun r => monthKey r = ym)) := by
  unfold monthly_donations
  exact mem_aggBy monthKey sumAmounts rs ym v

/-- Witness for C5: January 2024 of the sample table totals 110 €. -/
theorem C5_witness :
    (((2024 : Nat), (1 : Nat)), (110 : ℚ)) ∈ monthly_donations demoRecords :=
  (C5_monthly_totals demoRecords (2024, 1) 110).mpr
    ⟨by decide,
     by norm_num +decide [demoRecords, demoBase, sumAmounts, monthKey,
          List.filterMap_cons]⟩

theorem sorted_take_drop {α : Type} (r : α → α → Prop) (l : List α)
    (hs : List.Sorted r l) (n : Nat) :
    ∀ p ∈ l.take n, ∀ q ∈ l.drop n, r p q := by
  have h : List.Pairwise r (l.take n ++ l.drop n) := by
    rw [List.take_append_drop n l]
    exact hs
  exact (List.pairwise_append.mp h).2.2

/-- C6: `campaign_totals` totals `AmountEUR` per campaign; the top-5 set
(`head(5)` of the descending sort) beats — in total — every campaign outside
it, and the bottom-5 set (`tail(5)`) is beaten by every campaign outside
it. -/
theorem C6_campaign_ranking (rs : List Record) :
    (∀ c v, (c, v) ∈ campaign_totals rs ↔
        (∃ r ∈ rs, r.Campaign = c) ∧
        v = sumAmounts (rs.filter (fun r => r.Campaign = c))) ∧
    (∀ p ∈ top_5 rs, ∀ q ∈ campaign_totals rs,
        q.1 ∉ (top_5 rs).map Prod.fst → q.2 ≤ p.2) ∧
    (∀ p ∈ bottom_5 rs, ∀ q ∈ campaign_totals rs,
        q.1 ∉ (bottom_5 rs).map Prod.fst → p.2 ≤ q.2) := by
  have hsort : List.Sorted byAmountDesc (campaign_totals rs) :=
    List.sorted_insertionSort byAmountDesc _
  refine ⟨?_, ?_, ?_⟩
  · intro c v
    unfold campaign_totals
    rw [(List.perm_insertionSort byAmountDesc _).mem_iff]
    exact mem_aggBy (fun r => r.Campaign) sumAmounts rs c v
  · intro p hp q hq hq1
    have hptake : p ∈ (campaign_totals rs).take 5 :=
      (List.perm_insertionSort byAmountAsc _).mem_iff.mp hp
    have hqsplit : q ∈ (campaign_totals rs).take 5 ++ (campaign_totals rs).drop 5 := by
      rw [List.take_append_drop]
      exact hq
    rcases List.mem_append.mp hqsplit with hqt | hqd
    · refine absurd ?_ hq1
      have hq5 : q.1 ∈ ((campaign_totals rs).take 5).map Prod.fst :=
        List.mem_map.mpr ⟨q, hqt, rfl⟩
      exact (((List.perm_insertionSort byAmountAsc
        ((campaign_totals rs).take 5)).map Prod.fst).mem_iff).mpr hq5
    · exact sorted_take_drop byAmountDesc _ hsort 5 p hptake q hqd
  · intro p hp q hq hq1
    have hpdrop : p ∈ (campaign_totals rs).drop ((campaign_totals rs).length - 5) :=
      (List.perm_insertionSort byAmountAsc _).mem_iff.mp hp
    have hqsplit : q ∈ (campaign_totals rs).take ((campaign_totals rs).length - 5) ++
        (campaign_totals rs).drop ((campaign_totals rs).length - 5) := by
      rw [List.take_append_drop]
      exact hq
    rcases List.mem_append.mp hqsplit with hqt | hqd
    · exact sorted_take_drop byAmountDesc _ hsort _ q hqt p hpdrop
    · refine absurd ?_ hq1
      have hq5 : q.1 ∈ ((campaign_totals rs).drop
          ((campaign_totals rs).length - 5)).map Prod.fst :=
        List.mem_map.mpr ⟨q, hqd, rfl⟩
      exact (((List.perm_insertionSort byAmountAsc
        ((campaign_totals rs).drop ((campaign_totals rs).length - 5))).map
          Prod.fst).mem_iff).mpr hq5

/-- Witness for C6 at the sample table: c1 (60 €) is in the top-5 set, c6
(10 €) is outside it and in the bottom-5 set, c1 is outside the bottom-5
set, and the comparisons go the stated way. -/
theorem C6_witness :
    ("c1", (60 : ℚ)) ∈ top_5 demoRecords ∧
    ("c6", (10 : ℚ)) ∈ campaign_totals demoRecords ∧
    "c6" ∉ (top_5 demoRecords).map Prod.fst ∧
    ("c6", (10 : ℚ)) ∈ bottom_5 demoRecords ∧
    ("c1", (60 : ℚ)) ∈ campaign_totals demoRecords ∧
    "c1" ∉ (bottom_5 demoRecords).map Prod.fst ∧
    (10 : ℚ) ≤ (60 : ℚ) := by
  have hct : campaign_totals demoRecords =
      [("c1", (60 : ℚ)), ("c2", 50), ("c3", 40), ("c4", 30), ("c5", 20), ("c6", 10)] := by
    norm_num +decide [campaign_totals, aggBy, groupByKey, insertRow, sumAmounts,
      demoRecords, demoBase, List.insertionSort, List.orderedInsert,
      byAmountDesc, List.filterMap_cons]
  have htop : top_5 demoRecords =
      [("c5", (20 : ℚ)), ("c4", 30), ("c3", 40), ("c2", 50), ("c1", 60)] := by
    norm_num +decide [top_5, hct, List.insertionSort, List.orderedInsert, byAmountAsc]
  have hbot : bottom_5 demoRecords =
      [("c6", (10 : ℚ)), ("c5", 20), ("c4", 30), ("c3", 40), ("c2", 50)] := by
    norm_num +decide [bottom_5, hct, List.insertionSort, List.orderedInsert, byAmountAsc]
  have h1 : ("c1", (60 : ℚ)) ∈ top_5 demoRecords := by rw [htop]; norm_num
  have h2 : ("c6", (10 : ℚ)) ∈ campaign_totals demoRecords := by rw [hct]; norm_num
  have h3 : "c6" ∉ (top_5 demoRecords).map Prod.fst := by rw [htop]; decide
  have h4 : ("c6", (10 : ℚ)) ∈ bottom_5 demoRecords := by rw [hbot]; norm_num
  have h5 : ("c1", (60 : ℚ)) ∈ campaign_totals demoRecords := by rw [hct]; norm_num
  have h6 : "c1" ∉ (bottom_5 demoRecords).map Prod.fst := by rw [hbot]; decide
  exact ⟨h1, h2, h3, h4, h5, h6,
    (C6_campaign_ranking demoRecords).2.1 ("c1", 60) h1 ("c6", 10) h2 h3⟩

/-- Counterexample to C7: on a concrete non-empty table the dashboard body
computes six aggregation results, not five, and renders seven visuals. -/
theorem C7_counterexample :
    demoRecords ≠ [] ∧
    (dashboardAggregates demoRecords).length = 6 ∧
    ¬(dashboardAggregates demoRecords).length = 5 ∧
    (dashboardVisuals demoRecords).length = 7 :=
  ⟨by decide, rfl, by decide, rfl⟩

/-- C7 as amended: for every non-empty loaded table the pipeline computes
six independent aggregates; the campaign-totals aggregate is rendered as two
charts (top 5 and bottom 5) and each other aggregate as one chart or table,
seven rendered visuals in all. -/
theorem C7_amended_six_aggregates (rs : List Record) (_h : rs ≠ []) :
    (dashboardAggregates rs).length = 6 ∧ (dashboardVisuals rs).length = 7 :=
  ⟨rfl, rfl⟩

/-- Witness for the amended C7 at the sample table. -/
theorem C7_witness :
    (dashboardAggregates demoRecords).length = 6 ∧
    (dashboardVisuals demoRecords).length = 7 :=
  C7_amended_six_aggregates demoRecords (by decide)

/-- C10: the RFM table depends only on the rows whose `PaymentStatus` is
"Úspešná" (two tables with the same successful rows give the same RFM
table), while every other aggregate is computed over all loaded records
regardless of `PaymentStatus`: rewriting that field arbitrarily changes
none of them. -/
theorem C10_status_scope (rs₁ rs₂ : List Record) (f : Record → String)
    (h : successfulRows rs₁ = successfulRows rs₂) :
    rfm rs₁ = rfm rs₂ ∧
    monthly_donations (rs₁.map (fun r => { r with PaymentStatus := f r })) =
      monthly_donations rs₁ ∧
    campaign_totals (rs₁.map (fun r => { r with PaymentStatus := f r })) =
      campaign_totals rs₁ ∧
    freq_counts (rs₁.map (fun r => { r with PaymentStatus := f r })) =
      freq_counts rs₁ ∧
    donor_counts (rs₁.map (fun r => { r with PaymentStatus := f r })) =
      donor_counts rs₁ ∧
    donation_sums (rs₁.map (fun r => { r with PaymentStatus := f r })) =
      donation_sums rs₁ := by
  have hsum : ∀ l : List Record,
      sumAmounts (l.map (fun r => { r with PaymentStatus := f r })) = sumAmounts l := by
    intro l
    unfold sumAmounts
    rw [List.filterMap_map]
    rfl
  have hlen : ∀ l : List Record,
      (l.map (fun r => { r with PaymentStatus := f r })).length = l.length := by
    intro l
    simp
  refine ⟨?_, ?_, ?_, ?_, ?_, ?_⟩
  · unfold rfm
    rw [h]
  · unfold monthly_donations
    exact aggBy_map monthKey sumAmounts
      (fun r => { r with PaymentStatus := f r }) (fun r => rfl) hsum rs₁
  · unfold campaign_totals
    rw [aggBy_map (fun (r : Record) => r.Campaign) sumAmounts
      (fun r => { r with PaymentStatus := f r }) (fun r => rfl) hsum rs₁]
  · unfold freq_counts
    rw [aggBy_map (fun (r : Record) => r.Frequency) List.length
      (fun r => { r with PaymentStatus := f r }) (fun r => rfl) hlen rs₁]
  · unfold donor_counts
    rw [aggBy_map (fun (r : Record) => r.DonorType) List.length
      (fun r => { r with PaymentStatus := f r }) (fun r => rfl) hlen rs₁]
  · unfold donation_sums
    rw [aggBy_map (fun (r : Record) => r.DonorType) sumAmounts
      (fun r => { r with PaymentStatus := f r }) (fun r => rfl) hsum rs₁]

/-- Witness for C10: appending a failed donation leaves the RFM table
unchanged, and blanking every `PaymentStatus` leaves all other aggregates
unchanged. -/
theorem C10_witness :
    rfm (demoRecords ++ [demoFailedExtra]) = rfm demoRecords ∧
    monthly_donations ((demoRecords ++ [demoFailedExtra]).map
        (fun r => { r with PaymentStatus := "X" })) =
      monthly_donations (demoRecords ++ [demoFailedExtra]) ∧
    campaign_totals ((demoRecords ++ [demoFailedExtra]).map
        (fun r => { r with PaymentStatus := "X" })) =
      campaign_totals (demoRecords ++ [demoFailedExtra]) ∧
    freq_counts ((demoRecords ++ [demoFailedExtra]).map
        (fun r => { r with PaymentStatus := "X" })) =
      freq_counts (demoRecords ++ [demoFailedExtra]) ∧
    donor_counts ((demoRecords ++ [demoFailedExtra]).map
        (fun r => { r with PaymentStatus := "X" })) =
      donor_counts (demoRecords ++ [demoFailedExtra]) ∧
    donation_sums ((demoRecords ++ [demoFailedExtra]).map
        (fun r => { r with PaymentStatus := "X" })) =
      donation_sums (demoRecords ++ [demoFailedExtra]) :=
  C10_status_scope (demoRecords ++ [demoFailedExtra]) demoRecords
    (fun _ => "X") (by decide)
